import Mathlib

/-!
Verification of the sshBoxes access-broker subsystem against its
natural-language specification.

Python strings are embedded as `List Char` (`Str`), so that Python's
`token.split(':')` becomes `List.splitOn ':'` (both keep empty pieces and
split at every occurrence of the separator).  Python `int` is embedded as
`Int`, decimal printing (`str(i)`) as `intStr`, and the (canonical-form
fragment of) `int(s)` parsing as `parseInt`.  The keyed MAC
(`hmac.new(secret, payload, sha256).hexdigest()`) and the truncated SHA-256
digests are embedded as explicit function parameters (`mac`, `sha12`): none
of the verified properties depend on the internals of SHA-256, only on the
MAC being a deterministic function of `(secret, payload)`.
-/

/-- Python strings, embedded as lists of characters. -/
abbrev Str := List Char

/-- Coerce a Lean string literal to the embedding type. -/
def chars (s : String) : Str := s.data

/-! ### Decimal numerals: Python `str(i)` and `int(s)` -/

/-- The character of a decimal digit `d < 10`. -/
def digitCh (d : Nat) : Char := Char.ofNat (48 + d)

/-- The numeric value of a decimal digit character. -/
def digitVal (c : Char) : Nat := c.toNat - 48

/-- Decimal printing of a natural number, as Python `str` does. -/
def natStr (n : Nat) : Str :=
  if n = 0 then ['0'] else ((Nat.digits 10 n).map digitCh).reverse

/-- Decimal printing of a Python integer: `str(i)`. -/
def intStr (i : Int) : Str :=
  if i < 0 then '-' :: natStr i.natAbs else natStr i.toNat

/-- Parsing of a canonical decimal numeral (the fragment of Python `int(s)`
that the verified properties exercise: plain digit strings, optionally
preceded by a minus sign; everything else is rejected, as Python rejects it
with `ValueError`). -/
def parseNat (s : Str) : Option Nat :=
  if s = [] then none
  else if s.all Char.isDigit then some (Nat.ofDigits 10 ((s.map digitVal).reverse))
  else none

/-- Parsing of a signed canonical decimal numeral (Python `int(s)`). -/
def parseInt (s : Str) : Option Int :=
  match s with
  | [] => none
  | c :: cs =>
    if c = '-' then (parseNat cs).map (fun n => -(Int.ofNat n))
    else (parseNat (c :: cs)).map Int.ofNat

theorem digit_facts : ∀ d, d < 10 →
    (digitVal (digitCh d) = d ∧ (digitCh d).isDigit = true ∧
      digitCh d ≠ ':' ∧ digitCh d ≠ '-') := by decide

theorem natStr_ne_nil (n : Nat) : natStr n ≠ [] := by
  unfold natStr
  split
  · simp
  · next hn =>
    intro h
    have h' := List.reverse_eq_nil_iff.mp h
    have h'' := List.map_eq_nil_iff.mp h'
    exact Nat.digits_ne_nil_iff_ne_zero.mpr hn h''

theorem natStr_all_digit (n : Nat) : ∀ c ∈ natStr n, c.isDigit = true := by
  intro c hc
  unfold natStr at hc
  split at hc
  · simp at hc; subst hc; decide
  · rw [List.mem_reverse] at hc
    rcases List.mem_map.mp hc with ⟨d, hd, rfl⟩
    exact (digit_facts d (Nat.digits_lt_base (by norm_num) hd)).2.1

theorem colon_not_mem_natStr (n : Nat) : ':' ∉ natStr n := by
  intro h
  have := natStr_all_digit n ':' h
  simp [Char.isDigit] at this

theorem dash_not_mem_natStr (n : Nat) : '-' ∉ natStr n := by
  intro h
  have := natStr_all_digit n '-' h
  simp [Char.isDigit] at this

theorem colon_not_mem_intStr (i : Int) : ':' ∉ intStr i := by
  unfold intStr
  split
  · intro h
    rcases List.mem_cons.mp h with h' | h'
    · exact absurd h' (by decide)
    · exact colon_not_mem_natStr _ h'
  · exact colon_not_mem_natStr _

theorem map_digit_roundtrip : ∀ (l : List Nat), (∀ d ∈ l, d < 10) →
    l.map (digitVal ∘ digitCh) = l
  | [], _ => rfl
  | a :: t, h => by
    rw [List.map_cons]
    have ha : (digitVal ∘ digitCh) a = a := (digit_facts a (h a (by simp))).1
    rw [ha, map_digit_roundtrip t (fun d hd => h d (by simp [hd]))]

theorem parseNat_natStr (n : Nat) : parseNat (natStr n) = some n := by
  unfold parseNat
  rw [if_neg (natStr_ne_nil n), if_pos (List.all_eq_true.mpr (natStr_all_digit n))]
  congr 1
  unfold natStr
  split
  · subst n; decide
  · rw [List.map_reverse, List.reverse_reverse, List.map_map]
    rw [map_digit_roundtrip (Nat.digits 10 n)
      (fun d hd => Nat.digits_lt_base (by norm_num) hd), Nat.ofDigits_digits]

theorem parseInt_intStr (i : Int) : parseInt (intStr i) = some i := by
  unfold intStr
  split
  · next hneg =>
    show parseInt ('-' :: natStr i.natAbs) = some i
    simp only [parseInt, if_pos, parseNat_natStr, Option.map_some']
    congr 1
    rw [Int.ofNat_eq_coe]
    omega
  · next hpos =>
    rcases List.exists_cons_of_ne_nil (natStr_ne_nil i.toNat) with ⟨c, cs, hc⟩
    rw [hc]
    have hcd : c ≠ '-' := by
      intro h
      exact dash_not_mem_natStr i.toNat (by rw [hc, h]; exact List.mem_cons_self _ _)
    show parseInt (c :: cs) = some i
    simp only [parseInt, if_neg hcd, ← hc, parseNat_natStr, Option.map_some']
    congr 1
    rw [Int.ofNat_eq_coe]
    omega

/-! ### Splitting on the token delimiter -/

theorem splitOn_append_colon (xs tail : Str) (h : ':' ∉ xs) :
    (xs ++ ':' :: tail).splitOn ':' = xs :: tail.splitOn ':' := by
  unfold List.splitOn
  exact List.splitOnP_first _ xs
    (by intro x hx; simp only [beq_iff_eq]; exact fun hc => h (hc ▸ hx)) ':'
    (by simp) tail

theorem splitOn_fields : ∀ (fs : List Str) (tail : Str), fs ≠ [] →
    (∀ f ∈ fs, ':' ∉ f) →
    (List.intercalate [':'] fs ++ ':' :: tail).splitOn ':' = fs ++ tail.splitOn ':'
  | [], _, hne, _ => absurd rfl hne
  | [f], tail, _, hf => by
    have : List.intercalate [':'] [f] = f := by
      simp [List.intercalate]
    rw [this, splitOn_append_colon f tail (hf f (by simp))]
    rfl
  | f :: f' :: fs, tail, _, hf => by
    have hcons : List.intercalate [':'] (f :: f' :: fs) =
        f ++ ':' :: List.intercalate [':'] (f' :: fs) := by
      simp [List.intercalate, List.intersperse]
    rw [hcons, List.append_assoc]
    show (f ++ (':' :: (List.intercalate [':'] (f' :: fs) ++ ':' :: tail))).splitOn ':'
        = (f :: (f' :: fs)) ++ tail.splitOn ':'
    rw [splitOn_append_colon f _ (hf f (by simp)),
      splitOn_fields (f' :: fs) tail (by simp) (fun g hg => hf g (by simp [hg]))]
    rfl

theorem splitOn_single (xs : Str) (h : ':' ∉ xs) : xs.splitOn ':' = [xs] := by
  unfold List.splitOn
  exact List.splitOnP_eq_single _ xs
    (by intro x hx; simp only [beq_iff_eq]; exact fun hc => h (hc ▸ hx))

theorem two_le_length_splitOn : ∀ (tail : Str), ':' ∈ tail →
    2 ≤ (tail.splitOn ':').length
  | [], h => absurd h (by simp)
  | c :: cs, h => by
    show 2 ≤ ((c :: cs).splitOnP (· == ':')).length
    rw [List.splitOnP_cons]
    split
    · have := List.splitOnP_ne_nil (· == ':') cs
      have : 1 ≤ (cs.splitOnP (· == ':')).length := by
        cases hcs : cs.splitOnP (· == ':') with
        | nil => exact absurd hcs this
        | cons a l => simp
      simpa using this
    · next hne =>
      have hc : c ≠ ':' := by simpa using hne
      have hmem : ':' ∈ cs := by
        rcases List.mem_cons.mp h with h' | h'
        · exact absurd h'.symm hc
        · exact h'
      rw [List.length_modifyHead]
      exact two_le_length_splitOn cs hmem

/-! ### Capability token codec

`GatewayFastAPI.validate_token` embeds `validate_token` from
`api/gateway_fastapi.py`; `Gateway.validate_token` embeds `validate_token`
from `api/gateway.py` (the Flask gateway); `BoxInvite.create_invite` embeds
`create_invite` from `scripts/box-invite.py`.  The verifier's clock
(`int(time.time())`) is the explicit parameter `now`; the keyed MAC is the
explicit parameter `mac`. -/

namespace GatewayFastAPI

/-- The allow-list from `api/gateway_fastapi.py` line 133. -/
def allowed_profiles : List Str :=
  [chars "dev", chars "debug", chars "secure-shell", chars "privileged"]

/-- `validate_token` from `api/gateway_fastapi.py` lines 104-152:
split on `':'` expecting exactly 6 fields, require numeric ttl, require a
numeric timestamp at most 300 seconds before `now`, require the profile to
be allow-listed, and compare the signature against the recomputed MAC of
the first five fields. -/
def validate_token (mac : Str → Str → Str) (secret : Str) (now : Int)
    (token : Str) : Bool :=
  let parts := token.splitOn ':'
  if parts.length ≠ 6 then false
  else
    let profile := parts.getD 0 []
    let ttl_str := parts.getD 1 []
    let timestamp_str := parts.getD 2 []
    let recipient_hash := parts.getD 3 []
    let notes_hash := parts.getD 4 []
    let signature := parts.getD 5 []
    match parseInt ttl_str with
    | none => false
    | some _ =>
      match parseInt timestamp_str with
      | none => false
      | some token_timestamp =>
        if now - token_timestamp > 300 then false
        else if profile ∈ allowed_profiles then
          decide (signature = mac secret (List.intercalate [':']
            [profile, ttl_str, timestamp_str, recipient_hash, notes_hash]))
        else false

end GatewayFastAPI

namespace Gateway

/-- `validate_token` from `api/gateway.py` lines 21-38 (the Flask gateway):
split on `':'` expecting exactly 4 fields and compare the signature against
the recomputed MAC of the first three fields; there is no numeric check, no
freshness check and no profile allow-list check. -/
def validate_token (mac : Str → Str → Str) (secret : Str) (token : Str) : Bool :=
  let parts := token.splitOn ':'
  if parts.length ≠ 4 then false
  else
    let profile := parts.getD 0 []
    let ttl := parts.getD 1 []
    let timestamp := parts.getD 2 []
    let signature := parts.getD 3 []
    decide (signature = mac secret (List.intercalate [':'] [profile, ttl, timestamp]))

end Gateway

namespace BoxInvite

/-- The five-field payload built by `create_invite` in `scripts/box-invite.py`
lines 30-34.  `recipient`/`notes` are `[]` when absent (Python `None` or
`''`, both falsy), in which case the sentinel `"none"` is used; otherwise
the truncated digest `sha12` of the field is used. -/
def invitePayload (sha12 : Str → Str) (profile : Str) (ttl ts : Int)
    (recipient notes : Str) : Str :=
  let recipient_hash := if recipient = [] then chars "none" else sha12 recipient
  let notes_hash := if notes = [] then chars "none" else sha12 notes
  List.intercalate [':']
    [profile, intStr ttl, intStr ts, recipient_hash, notes_hash]

/-- `create_invite` from `scripts/box-invite.py` lines 25-56: the returned
token is the payload, a `':'` delimiter, and the hex MAC of the payload. -/
def create_invite (mac : Str → Str → Str) (sha12 : Str → Str) (secret : Str)
    (profile : Str) (ttl ts : Int) (recipient notes : Str) : Str :=
  let payload := invitePayload sha12 profile ttl ts recipient notes
  payload ++ ':' :: mac secret payload

end BoxInvite

namespace GatewayFastAPI

theorem validate_token_not6 (mac : Str → Str → Str) (secret : Str) (now : Int)
    (token : Str) (h : (token.splitOn ':').length ≠ 6) :
    validate_token mac secret now token = false := by
  unfold validate_token
  simp only [if_pos h]

theorem validate_token_parts (mac : Str → Str → Str) (secret : Str) (now : Int)
    (token p t ts r n s : Str) (h : token.splitOn ':' = [p, t, ts, r, n, s]) :
    validate_token mac secret now token =
      (match parseInt t with
       | none => false
       | some _ =>
         match parseInt ts with
         | none => false
         | some token_timestamp =>
           if now - token_timestamp > 300 then false
           else if p ∈ allowed_profiles then
             decide (s = mac secret (List.intercalate [':'] [p, t, ts, r, n]))
           else false) := by
  unfold validate_token
  rw [h]
  simp [List.getD]

theorem allowed_profile_colon_free (p : Str) (hp : p ∈ allowed_profiles) :
    ':' ∉ p := by
  simp only [allowed_profiles, chars, List.mem_cons, List.not_mem_nil, or_false] at hp
  rcases hp with rfl | rfl | rfl | rfl <;> decide

end GatewayFastAPI

theorem invitePayload_fields (sha12 : Str → Str) (profile : Str) (ttl ts : Int)
    (recipient notes : Str) (hprofile : ':' ∉ profile)
    (hsha : ∀ s, ':' ∉ sha12 s) :
    ∀ f ∈ [profile, intStr ttl, intStr ts,
        (if recipient = [] then chars "none" else sha12 recipient),
        (if notes = [] then chars "none" else sha12 notes)], ':' ∉ f := by
  intro f hf
  simp only [List.mem_cons, List.not_mem_nil, or_false] at hf
  rcases hf with rfl | rfl | rfl | rfl | rfl
  · exact hprofile
  · exact colon_not_mem_intStr ttl
  · exact colon_not_mem_intStr ts
  · split
    · decide
    · exact hsha recipient
  · split
    · decide
    · exact hsha notes

/-- **C1.** For every valid `(secret, profile, ttl)` — secret non-empty,
profile in the allow-list — and any freshness-respecting clock
(`now - ts ≤ 300`), the FastAPI gateway accepts the token freshly issued by
`create_invite`; and replacing any single character of the token's
signature field by a different character makes it reject the token. -/
theorem invite_roundtrip_verify (mac : Str → Str → Str) (sha12 : Str → Str)
    (secret profile recipient notes : Str) (ttl ts now : Int)
    (hsecret : secret ≠ [])
    (hprofile : profile ∈ GatewayFastAPI.allowed_profiles)
    (hfresh : now - ts ≤ 300)
    (hsha : ∀ s, ':' ∉ sha12 s)
    (hmac : ∀ k m, ':' ∉ mac k m) :
    GatewayFastAPI.validate_token mac secret now
      (BoxInvite.create_invite mac sha12 secret profile ttl ts recipient notes) = true
    ∧ ∀ i, ∀ hi : i < (mac secret
          (BoxInvite.invitePayload sha12 profile ttl ts recipient notes)).length,
        ∀ c, c ≠ (mac secret
          (BoxInvite.invitePayload sha12 profile ttl ts recipient notes)).get ⟨i, hi⟩ →
        GatewayFastAPI.validate_token mac secret now
          (BoxInvite.invitePayload sha12 profile ttl ts recipient notes ++ ':' ::
            (mac secret
              (BoxInvite.invitePayload sha12 profile ttl ts recipient notes)).set i c)
          = false := by
  have hfields := invitePayload_fields sha12 profile ttl ts recipient notes
    (GatewayFastAPI.allowed_profile_colon_free profile hprofile) hsha
  set pay := BoxInvite.invitePayload sha12 profile ttl ts recipient notes with hpay
  set sig := mac secret pay with hsig
  have hpay' : pay = List.intercalate [':'] [profile, intStr ttl, intStr ts,
      (if recipient = [] then chars "none" else sha12 recipient),
      (if notes = [] then chars "none" else sha12 notes)] := rfl
  have hsplit : ∀ tail : Str, (pay ++ ':' :: tail).splitOn ':' =
      [profile, intStr ttl, intStr ts,
        (if recipient = [] then chars "none" else sha12 recipient),
        (if notes = [] then chars "none" else sha12 notes)] ++ tail.splitOn ':' := by
    intro tail
    rw [hpay', splitOn_fields _ tail (by simp) hfields]
  have hvalid : ∀ tail : Str, ':' ∉ tail →
      GatewayFastAPI.validate_token mac secret now (pay ++ ':' :: tail)
        = decide (tail = sig) := by
    intro tail htail
    have h6 : (pay ++ ':' :: tail).splitOn ':' =
        [profile, intStr ttl, intStr ts,
          (if recipient = [] then chars "none" else sha12 recipient),
          (if notes = [] then chars "none" else sha12 notes), tail] := by
      rw [hsplit tail, splitOn_single tail htail]
      simp
    rw [GatewayFastAPI.validate_token_parts mac secret now _ _ _ _ _ _ _ h6]
    simp only [parseInt_intStr]
    rw [if_neg (by omega), if_pos hprofile]
    rfl
  constructor
  · have : BoxInvite.create_invite mac sha12 secret profile ttl ts recipient notes
        = pay ++ ':' :: sig := rfl
    rw [this, hvalid sig (hmac secret pay)]
    simp
  · intro i hi c hc
    by_cases hcol : ':' ∈ sig.set i c
    · apply GatewayFastAPI.validate_token_not6
      rw [hsplit (sig.set i c)]
      have := two_le_length_splitOn (sig.set i c) hcol
      simp only [List.length_append, List.length_cons]
      omega
    · rw [hvalid (sig.set i c) hcol]
      have hne : sig.set i c ≠ sig := by
        intro h
        have h1 : (sig.set i c).get? i = some c := by
          rw [List.get?_eq_getElem?]
          exact List.getElem?_set_self hi
        rw [h, List.get?_eq_get hi] at h1
        exact hc (Option.some.inj h1).symm
      simp [hne]

/-- Witness for C1: a concrete valid issue/verify round trip. -/
theorem invite_roundtrip_verify_witness :
    GatewayFastAPI.validate_token (fun _ _ => chars "ab") (chars "k") 0
      (BoxInvite.create_invite (fun _ _ => chars "ab") (fun _ => chars "cd")
        (chars "k") (chars "dev") 600 0 [] []) = true :=
  (invite_roundtrip_verify (fun _ _ => chars "ab") (fun _ => chars "cd")
    (chars "k") (chars "dev") [] [] 600 0 0 (by decide) (by decide) (by decide)
    (fun _ => (by decide : ':' ∉ chars "cd"))
    (fun _ _ => (by decide : ':' ∉ chars "ab"))).1

/-- **C2.** For an otherwise-valid token (allow-listed profile, well-formed
colon-free fields, matching signature), the FastAPI gateway rejects it when
`issuedAt = now - 301`, accepts it when `issuedAt = now - 299`, and in
general rejects it exactly when `now - issuedAt` exceeds 300 seconds. -/
theorem freshness_boundary_300 (mac : Str → Str → Str)
    (secret profile rh nh : Str) (ttl now : Int)
    (hprofile : profile ∈ GatewayFastAPI.allowed_profiles)
    (hrh : ':' ∉ rh) (hnh : ':' ∉ nh)
    (hmac : ∀ k m, ':' ∉ mac k m) :
    (GatewayFastAPI.validate_token mac secret now
      (List.intercalate [':'] [profile, intStr ttl, intStr (now - 301), rh, nh]
        ++ ':' :: mac secret (List.intercalate [':']
          [profile, intStr ttl, intStr (now - 301), rh, nh])) = false)
    ∧ (GatewayFastAPI.validate_token mac secret now
      (List.intercalate [':'] [profile, intStr ttl, intStr (now - 299), rh, nh]
        ++ ':' :: mac secret (List.intercalate [':']
          [profile, intStr ttl, intStr (now - 299), rh, nh])) = true)
    ∧ ∀ ts : Int,
      (GatewayFastAPI.validate_token mac secret now
        (List.intercalate [':'] [profile, intStr ttl, intStr ts, rh, nh]
          ++ ':' :: mac secret (List.intercalate [':']
            [profile, intStr ttl, intStr ts, rh, nh])) = false
        ↔ now - ts > 300) := by
  have hpcf := GatewayFastAPI.allowed_profile_colon_free profile hprofile
  have key : ∀ ts : Int,
      GatewayFastAPI.validate_token mac secret now
        (List.intercalate [':'] [profile, intStr ttl, intStr ts, rh, nh]
          ++ ':' :: mac secret (List.intercalate [':']
            [profile, intStr ttl, intStr ts, rh, nh]))
        = if now - ts > 300 then false else true := by
    intro ts
    have hfields : ∀ f ∈ [profile, intStr ttl, intStr ts, rh, nh], ':' ∉ f := by
      intro f hf
      simp only [List.mem_cons, List.not_mem_nil, or_false] at hf
      rcases hf with rfl | rfl | rfl | rfl | rfl
      · exact hpcf
      · exact colon_not_mem_intStr ttl
      · exact colon_not_mem_intStr ts
      · exact hrh
      · exact hnh
    have h6 : (List.intercalate [':'] [profile, intStr ttl, intStr ts, rh, nh]
        ++ ':' :: mac secret (List.intercalate [':']
          [profile, intStr ttl, intStr ts, rh, nh])).splitOn ':'
        = [profile, intStr ttl, intStr ts, rh, nh,
            mac secret (List.intercalate [':']
              [profile, intStr ttl, intStr ts, rh, nh])] := by
      rw [splitOn_fields _ _ (by simp) hfields, splitOn_single _ (hmac secret _)]
      simp
    rw [GatewayFastAPI.validate_token_parts mac secret now _ _ _ _ _ _ _ h6]
    simp only [parseInt_intStr]
    by_cases hts : now - ts > 300
    · rw [if_pos hts, if_pos hts]
    · rw [if_neg hts, if_neg hts, if_pos hprofile]
      simp
  refine ⟨?_, ?_, ?_⟩
  · rw [key (now - 301), if_pos (by omega)]
  · rw [key (now - 299), if_neg (by omega)]
  · intro ts
    rw [key ts]
    by_cases hts : now - ts > 300
    · simp [hts]
    · simp [hts]

/-- Witness for C2 at a concrete instance. -/
theorem freshness_boundary_300_witness :
    (GatewayFastAPI.validate_token (fun _ _ => chars "ab") (chars "k") 400
      (List.intercalate [':'] [chars "dev", intStr 600, intStr (400 - 301),
          chars "none", chars "none"]
        ++ ':' :: (fun (_ _ : Str) => chars "ab") (chars "k")
          (List.intercalate [':'] [chars "dev", intStr 600, intStr (400 - 301),
            chars "none", chars "none"])) = false)
    ∧ (GatewayFastAPI.validate_token (fun _ _ => chars "ab") (chars "k") 400
      (List.intercalate [':'] [chars "dev", intStr 600, intStr (400 - 299),
          chars "none", chars "none"]
        ++ ':' :: (fun (_ _ : Str) => chars "ab") (chars "k")
          (List.intercalate [':'] [chars "dev", intStr 600, intStr (400 - 299),
            chars "none", chars "none"])) = true)
    ∧ ∀ ts : Int,
      (GatewayFastAPI.validate_token (fun _ _ => chars "ab") (chars "k") 400
        (List.intercalate [':'] [chars "dev", intStr 600, intStr ts,
            chars "none", chars "none"]
          ++ ':' :: (fun (_ _ : Str) => chars "ab") (chars "k")
            (List.intercalate [':'] [chars "dev", intStr 600, intStr ts,
              chars "none", chars "none"])) = false
        ↔ (400 : Int) - ts > 300) :=
  freshness_boundary_300 (fun _ _ => chars "ab") (chars "k") (chars "dev")
    (chars "none") (chars "none") 600 400 (by decide)
    (by decide) (by decide) (fun _ _ => (by decide : ':' ∉ chars "ab"))

namespace Gateway

theorem validate_token_not4 (mac : Str → Str → Str) (secret : Str)
    (token : Str) (h : (token.splitOn ':').length ≠ 4) :
    validate_token mac secret token = false := by
  unfold validate_token
  simp only [if_pos h]

end Gateway

/-- Counterexample for **C3**: a concrete six-field token that the FastAPI
gateway's `validate_token` accepts and the Flask gateway's `validate_token`
rejects (the Flask validator requires exactly 4 colon-delimited fields),
so the two validators do not accept the same set of token strings. -/
theorem validators_disagree_cx :
    GatewayFastAPI.validate_token (fun _ _ => chars "s") (chars "k") 0
      (chars "dev:600:0:none:none:s") = true
    ∧ Gateway.validate_token (fun _ _ => chars "s") (chars "k")
      (chars "dev:600:0:none:none:s") = false := by
  constructor
  · decide
  · decide

/-- **C3 (amended).** The two gateway validators are not equivalent: any
token accepted by the FastAPI validator splits into exactly 6 colon-delimited
fields and is rejected by the Flask validator, and any token accepted by the
Flask validator splits into exactly 4 colon-delimited fields (and is rejected
by the FastAPI validator); no token string is accepted by both. -/
theorem validators_never_both_accept :
    (∀ (mac : Str → Str → Str) (secret : Str) (now : Int) (token : Str),
      GatewayFastAPI.validate_token mac secret now token = true →
        (token.splitOn ':').length = 6
        ∧ Gateway.validate_token mac secret token = false)
    ∧ (∀ (mac : Str → Str → Str) (secret : Str) (now : Int) (token : Str),
      Gateway.validate_token mac secret token = true →
        (token.splitOn ':').length = 4
        ∧ GatewayFastAPI.validate_token mac secret now token = false) := by
  constructor
  · intro mac secret now token h
    have h6 : (token.splitOn ':').length = 6 := by
      by_contra h6
      rw [GatewayFastAPI.validate_token_not6 mac secret now token h6] at h
      exact Bool.false_ne_true h
    exact ⟨h6, Gateway.validate_token_not4 mac secret token (by omega)⟩
  · intro mac secret now token h
    have h4 : (token.splitOn ':').length = 4 := by
      by_contra h4
      rw [Gateway.validate_token_not4 mac secret token h4] at h
      exact Bool.false_ne_true h
    exact ⟨h4, GatewayFastAPI.validate_token_not6 mac secret now token (by omega)⟩

/-- Witness for the amended C3, at the concrete token of the counterexample. -/
theorem validators_never_both_accept_witness :
    ((chars "dev:600:0:none:none:s").splitOn ':').length = 6
    ∧ Gateway.validate_token (fun _ _ => chars "s") (chars "k")
      (chars "dev:600:0:none:none:s") = false :=
  validators_never_both_accept.1 (fun _ _ => chars "s") (chars "k") 0
    (chars "dev:600:0:none:none:s") (by decide)

/-! ### Session store, destruction paths and retention

Session rows as stored in the `sessions` table
(`api/sqlite_session_recorder.py` lines 60-77, `api/gateway_fastapi.py`
lines 276-294); the fields not used by any verified property (ssh host,
port, user, timestamps other than `created_at`/`ended_at`) are omitted.
The SQL `UPDATE ... WHERE session_id = ?` statements are embedded as maps
over the row list that rewrite every matching row; `SELECT ... WHERE
session_id = ?` with `fetchone()` is embedded as `List.find?`. -/

structure SessionRow where
  session_id : Str
  container_name : Str
  status : Str
  ended_at : Option Str
  created_at : Str
  profile : Str
  ttl : Int
deriving DecidableEq

/-- A row after `SET status = 'destroyed', ended_at = ?`. -/
def destroyedRow (now : Str) (r : SessionRow) : SessionRow :=
  { r with status := chars "destroyed", ended_at := some now }

/-- `UPDATE sessions SET status = 'destroyed', ended_at = ? WHERE
session_id = ?` (`api/gateway_fastapi.py` lines 189-190 and 452-453,
`api/provisioner.py` lines 46-49): unconditional on the current status. -/
def sqlUpdateDestroyed (sid now : Str) (db : List SessionRow) : List SessionRow :=
  db.map fun r => if r.session_id = sid then destroyedRow now r else r

namespace GatewayFastAPI

/-- The body of `destroy_task` inside `schedule_destroy`
(`api/gateway_fastapi.py` lines 156-198), run when the scheduled
destruction fires after the TTL sleep: it invokes the external destroy
script with the `container_name` captured at scheduling time — without
reading the session's current status — and then runs the `destroyed`
update regardless of the script's exit code (a non-zero exit is only
logged).  Returns the updated table and the container name passed to the
external destroyer. -/
def destroy_task (container_name sid now : Str) (destroyExit : Int)
    (db : List SessionRow) : List SessionRow × Str :=
  (sqlUpdateDestroyed sid now db, container_name)

inductive DestroyOutcome
  | notFound
  | alreadyDestroyed
  | destroyFailed
  | destroyed
deriving DecidableEq

structure DestroyResult where
  outcome : DestroyOutcome
  db : List SessionRow
  externalCall : Option Str
deriving DecidableEq

/-- `destroy_session` (`api/gateway_fastapi.py` lines 388-461, SQLite
branch): look the session up; 404 if absent; no-op success if already
`destroyed`; otherwise invoke the external destroy script and — only if
its exit code is zero — run the `destroyed` update; a non-zero exit raises
a 500 error before any update.  `externalCall` records the container name
passed to the external destroyer, `none` when the script is not invoked. -/
def destroy_session (db : List SessionRow) (sid now : Str)
    (destroyExit : Int) : DestroyResult :=
  match db.find? (fun r => decide (r.session_id = sid)) with
  | none => ⟨.notFound, db, none⟩
  | some row =>
    if row.status = chars "destroyed" then ⟨.alreadyDestroyed, db, none⟩
    else if destroyExit ≠ 0 then ⟨.destroyFailed, db, some row.container_name⟩
    else ⟨.destroyed, sqlUpdateDestroyed sid now db, some row.container_name⟩

end GatewayFastAPI

namespace Provisioner

/-- The body of `destroy_task` inside `schedule_destroy`
(`api/provisioner.py` lines 37-56): the external destroy runs with
`check=True`, so a non-zero exit raises before the update — the
`destroyed` update runs only when the external call succeeds. -/
def destroy_task (container_name sid now : Str) (destroyExit : Int)
    (db : List SessionRow) : List SessionRow × Str :=
  ((if destroyExit = 0 then sqlUpdateDestroyed sid now db else db),
    container_name)

end Provisioner

namespace Recorder

/-- The session-table effect of `stop_recording`
(`api/sqlite_session_recorder.py` lines 173-183): `UPDATE sessions SET
status = 'ended', ended_at = ? WHERE session_id = ?`, unconditional on the
current status. -/
def stop_recording (db : List SessionRow) (sid now : Str) : List SessionRow :=
  db.map fun r =>
    if r.session_id = sid then { r with status := chars "ended", ended_at := some now }
    else r

end Recorder

/-- A concrete active session row, used by concrete instances below. -/
def rowActive : SessionRow :=
  ⟨chars "s1", chars "box_s1", chars "active", none, chars "2026-10-01",
    chars "dev", 600⟩

/-- A concrete already-destroyed session row. -/
def rowDestroyed : SessionRow :=
  ⟨chars "s1", chars "box_s1", chars "destroyed", some (chars "t0"),
    chars "2026-10-01", chars "dev", 600⟩

/-- Counterexample for **C4**: on the explicit destroy path, when the
external destroy script exits non-zero (exit code 1), the session's stored
status is NOT set to `destroyed` — the handler raises a 500 error and
leaves the row unchanged (still `active`), although the external destroyer
was invoked. -/
theorem explicit_destroy_failure_cx :
    GatewayFastAPI.destroy_session [rowActive] (chars "s1") (chars "t1") 1
      = ⟨.destroyFailed, [rowActive], some (chars "box_s1")⟩
    ∧ ((GatewayFastAPI.destroy_session [rowActive] (chars "s1") (chars "t1") 1).db.map
        (fun r => r.status)) = [chars "active"] := by
  constructor
  · decide
  · decide

/-- **C4 (amended).** On the scheduled-fire path of the FastAPI gateway the
stored status is set to `destroyed` regardless of the external destroy
command's exit status; on the explicit destroy path the transition happens
only when the external command succeeds — a non-zero exit leaves the stored
row unchanged and reports failure (and the provisioner service's scheduled
fire, which runs the script with `check=True`, likewise skips the update on
failure). -/
theorem destroy_paths_status_update :
    (∀ (cn sid now : Str) (exitCode : Int) (db : List SessionRow),
      (GatewayFastAPI.destroy_task cn sid now exitCode db).1
        = sqlUpdateDestroyed sid now db)
    ∧ (∀ (db : List SessionRow) (sid now : Str) (exitCode : Int) (r : SessionRow),
      db.find? (fun x => decide (x.session_id = sid)) = some r →
      r.status ≠ chars "destroyed" → exitCode ≠ 0 →
      GatewayFastAPI.destroy_session db sid now exitCode
        = ⟨.destroyFailed, db, some r.container_name⟩)
    ∧ (∀ (db : List SessionRow) (sid now : Str) (r : SessionRow),
      db.find? (fun x => decide (x.session_id = sid)) = some r →
      r.status ≠ chars "destroyed" →
      GatewayFastAPI.destroy_session db sid now 0
        = ⟨.destroyed, sqlUpdateDestroyed sid now db, some r.container_name⟩)
    ∧ (∀ (cn sid now : Str) (exitCode : Int) (db : List SessionRow),
      exitCode ≠ 0 → (Provisioner.destroy_task cn sid now exitCode db).1 = db) := by
  refine ⟨fun _ _ _ _ _ => rfl, ?_, ?_, ?_⟩
  · intro db sid now exitCode r hfind hst hexit
    unfold GatewayFastAPI.destroy_session
    rw [hfind]
    simp [hst, hexit]
  · intro db sid now r hfind hst
    unfold GatewayFastAPI.destroy_session
    rw [hfind]
    simp [hst]
  · intro cn sid now exitCode db hexit
    unfold Provisioner.destroy_task
    simp [hexit]

/-- Witness for the amended C4, at the counterexample's concrete input. -/
theorem destroy_paths_status_update_witness :
    GatewayFastAPI.destroy_session [rowActive] (chars "s1") (chars "t1") 1
      = ⟨.destroyFailed, [rowActive], some rowActive.container_name⟩ :=
  destroy_paths_status_update.2.1 [rowActive] (chars "s1") (chars "t1") 1
    rowActive (by decide) (by decide) (by decide)

/-- Counterexample for **C5**: `stop_recording` on a session whose stored
status is the terminal `destroyed` changes that status to `ended` — a
subsequent store operation does change a terminal status. -/
theorem terminal_status_overwritten_cx :
    rowDestroyed.status = chars "destroyed"
    ∧ (Recorder.stop_recording [rowDestroyed] (chars "s1") (chars "t2")).map
        (fun r => r.status) = [chars "ended"] := by
  constructor
  · decide
  · decide

/-- **C5 (amended).** Terminal statuses are not sticky: both status updates
are unconditional `UPDATE ... WHERE session_id = ?` statements, so
`stop_recording` sets a `destroyed` session's status to `ended`, and the
`destroyed` update sets an `ended` session's status back to `destroyed` —
a session does not transition to `destroyed` exactly once. -/
theorem status_updates_unconditional :
    (∀ (db : List SessionRow) (sid now : Str) (r : SessionRow), r ∈ db →
      r.session_id = sid → r.status = chars "destroyed" →
      { r with status := chars "ended", ended_at := some now }
        ∈ Recorder.stop_recording db sid now)
    ∧ (∀ (db : List SessionRow) (sid now : Str) (r : SessionRow), r ∈ db →
      r.session_id = sid → r.status = chars "ended" →
      destroyedRow now r ∈ sqlUpdateDestroyed sid now db) := by
  constructor
  · intro db sid now r hr hsid _
    exact List.mem_map.mpr ⟨r, hr, by rw [if_pos hsid]⟩
  · intro db sid now r hr hsid _
    exact List.mem_map.mpr ⟨r, hr, by rw [if_pos hsid]⟩

/-- Witness for the amended C5 at a concrete destroyed row. -/
theorem status_updates_unconditional_witness :
    { rowDestroyed with status := chars "ended", ended_at := some (chars "t2") }
      ∈ Recorder.stop_recording [rowDestroyed] (chars "s1") (chars "t2") :=
  status_updates_unconditional.1 [rowDestroyed] (chars "s1") (chars "t2")
    rowDestroyed (by decide) (by decide) (by decide)

/-- Counterexample for **C6**: when the scheduled destruction fires for a
session that is already `destroyed`, the fire handler still invokes the
external destroy script (with the container name captured at scheduling
time) — it does not read the stored status and does not skip the call. -/
theorem fire_invokes_external_when_destroyed_cx :
    rowDestroyed.status = chars "destroyed"
    ∧ (GatewayFastAPI.destroy_task (chars "box_s1") (chars "s1") (chars "t2")
        0 [rowDestroyed]).2 = chars "box_s1" := by
  constructor
  · decide
  · decide

/-- **C6 (amended).** The fire handler never reads the session's stored
status: on fire it always invokes the external destroy script with the
container name captured at scheduling time, and always runs the
`destroyed` update, whatever the current table contents. -/
theorem fire_handler_unconditional :
    ∀ (cn sid now : Str) (exitCode : Int) (db : List SessionRow),
      (GatewayFastAPI.destroy_task cn sid now exitCode db).2 = cn
      ∧ (GatewayFastAPI.destroy_task cn sid now exitCode db).1
          = sqlUpdateDestroyed sid now db :=
  fun _ _ _ _ _ => ⟨rfl, rfl⟩

namespace Recorder

/-- A row of the `session_recordings` table
(`api/sqlite_session_recorder.py` lines 80-90); only the fields the
retention logic touches are kept. -/
structure RecordingRow where
  session_id : Str
  recording_path : Str
deriving DecidableEq

/-- The purge condition of `cleanup_old_recordings`
(`api/sqlite_session_recorder.py` lines 296-300 and 314-327):
`created_at < datetime('now', '-N days')` (ISO-8601 strings, compared
lexicographically by SQLite, which is chronological order — the cutoff
instant is the explicit parameter `cutoff`) and
`status = 'ended' OR status = 'destroyed'`. -/
def purgeTarget (cutoff : Str) (r : SessionRow) : Bool :=
  decide (r.created_at < cutoff) &&
    (decide (r.status = chars "ended") || decide (r.status = chars "destroyed"))

/-- `cleanup_old_recordings` (`api/sqlite_session_recorder.py` lines
289-331): select the old terminal sessions, delete their on-disk artifacts
(third component: the session ids whose `.cast`/`.timing`/`.json` files
are removed), delete the matching `session_recordings` rows (the subquery
runs against the still-undeleted `sessions` table), then delete the
session rows themselves. -/
def cleanup_old_recordings (cutoff : Str) (sessions : List SessionRow)
    (recordings : List RecordingRow) :
    List SessionRow × List RecordingRow × List Str :=
  let old_sessions := (sessions.filter (purgeTarget cutoff)).map
    (fun r => r.session_id)
  ( sessions.filter (fun r => ! purgeTarget cutoff r)
  , recordings.filter (fun rec => ! sessions.any (fun s =>
      decide (s.session_id = rec.session_id) && purgeTarget cutoff s))
  , old_sessions )

theorem purgeTarget_iff (cutoff : Str) (r : SessionRow) :
    purgeTarget cutoff r = true ↔
      (r.created_at < cutoff ∧
        (r.status = chars "ended" ∨ r.status = chars "destroyed")) := by
  simp [purgeTarget]

end Recorder

/-- **C9.** `cleanup_old_recordings` deletes exactly the session rows whose
`created_at` is older than the cutoff and whose status is terminal (`ended`
or `destroyed`), together with their recording rows and on-disk artifacts;
an `active` session is never deleted regardless of its age. -/
theorem purge_characterization (cutoff : Str) (sessions : List SessionRow)
    (recordings : List Recorder.RecordingRow) :
    (∀ s ∈ sessions,
      (s ∈ (Recorder.cleanup_old_recordings cutoff sessions recordings).1 ↔
        ¬(s.created_at < cutoff ∧
          (s.status = chars "ended" ∨ s.status = chars "destroyed"))))
    ∧ (∀ s ∈ sessions, s.status = chars "active" →
        s ∈ (Recorder.cleanup_old_recordings cutoff sessions recordings).1)
    ∧ (∀ rec ∈ recordings,
      (rec ∈ (Recorder.cleanup_old_recordings cutoff sessions recordings).2.1 ↔
        ¬ ∃ s ∈ sessions, s.session_id = rec.session_id ∧
          s.created_at < cutoff ∧
          (s.status = chars "ended" ∨ s.status = chars "destroyed")))
    ∧ (∀ sid : Str,
      (sid ∈ (Recorder.cleanup_old_recordings cutoff sessions recordings).2.2 ↔
        ∃ s ∈ sessions, s.session_id = sid ∧ s.created_at < cutoff ∧
          (s.status = chars "ended" ∨ s.status = chars "destroyed"))) := by
  refine ⟨?_, ?_, ?_, ?_⟩
  · intro s hs
    have hp := Recorder.purgeTarget_iff cutoff s
    simp only [Recorder.cleanup_old_recordings, List.mem_filter, hs, true_and,
      Bool.not_eq_true']
    rw [← hp]
    simp
  · intro s hs hactive
    have h2 : (decide (s.status = chars "ended")
        || decide (s.status = chars "destroyed")) = false := by
      rw [hactive]
      decide
    have hp : Recorder.purgeTarget cutoff s = false := by
      simp [Recorder.purgeTarget, h2]
    simp [Recorder.cleanup_old_recordings, List.mem_filter, hs, hp]
  · intro rec hrec
    have hany : (sessions.any (fun s =>
        decide (s.session_id = rec.session_id) && Recorder.purgeTarget cutoff s))
          = true
        ↔ ∃ s ∈ sessions, s.session_id = rec.session_id ∧
            s.created_at < cutoff ∧
            (s.status = chars "ended" ∨ s.status = chars "destroyed") := by
      rw [List.any_eq_true]
      constructor
      · rintro ⟨s, hs, hpb⟩
        rw [Bool.and_eq_true, decide_eq_true_eq] at hpb
        exact ⟨s, hs, hpb.1, (Recorder.purgeTarget_iff cutoff s).mp hpb.2⟩
      · rintro ⟨s, hs, hid, hcond⟩
        refine ⟨s, hs, ?_⟩
        rw [Bool.and_eq_true, decide_eq_true_eq]
        exact ⟨hid, (Recorder.purgeTarget_iff cutoff s).mpr hcond⟩
    constructor
    · intro h hex
      rcases List.mem_filter.mp h with ⟨-, hb⟩
      rw [Bool.not_eq_true'] at hb
      rw [hany.mpr hex] at hb
      exact Bool.noConfusion hb
    · intro hnex
      refine List.mem_filter.mpr ⟨hrec, ?_⟩
      rw [Bool.not_eq_true']
      cases hcase : sessions.any (fun s =>
          decide (s.session_id = rec.session_id) && Recorder.purgeTarget cutoff s) with
      | false => rfl
      | true => exact absurd (hany.mp hcase) hnex
  · intro sid
    show sid ∈ (sessions.filter (Recorder.purgeTarget cutoff)).map
        (fun r => r.session_id) ↔ _
    constructor
    · intro h
      rcases List.mem_map.mp h with ⟨s, hsf, rfl⟩
      rcases List.mem_filter.mp hsf with ⟨hs, hpb⟩
      exact ⟨s, hs, rfl, (Recorder.purgeTarget_iff cutoff s).mp hpb⟩
    · rintro ⟨s, hs, rfl, hcond⟩
      exact List.mem_map.mpr ⟨s, List.mem_filter.mpr
        ⟨hs, (Recorder.purgeTarget_iff cutoff s).mpr hcond⟩, rfl⟩

/-- Witness for C9: an 8-day-old destroyed session is purged by a 7-day
cutoff while an equally old active session is retained. -/
theorem purge_characterization_witness :
    (rowDestroyed ∈ [rowDestroyed, rowActive] ∧
      (rowDestroyed ∈ (Recorder.cleanup_old_recordings (chars "2026-10-09")
          [rowDestroyed, rowActive] []).1 ↔
        ¬(rowDestroyed.created_at < chars "2026-10-09" ∧
          (rowDestroyed.status = chars "ended" ∨
            rowDestroyed.status = chars "destroyed"))))
    ∧ rowActive ∈ (Recorder.cleanup_old_recordings (chars "2026-10-09")
        [rowDestroyed, rowActive] []).1 :=
  ⟨⟨by decide, (purge_characterization (chars "2026-10-09")
      [rowDestroyed, rowActive] []).1 rowDestroyed (by decide)⟩,
    (purge_characterization (chars "2026-10-09")
      [rowDestroyed, rowActive] []).2.1 rowActive (by decide) (by decide)⟩

/-! ### SQLite connection pool (`api/connection_pool.py`)

The pool's mutable state is the idle `pool` list, the
`active_connections` counter and the set of connections currently checked
out (`outstanding`, implicit in Python as the connections held by
borrowers inside the `get_connection` context manager).  Connections are
identified by creation order (`nextConn` numbers freshly created
connections).  The lock makes every pool operation atomic, so the
concurrent behaviour is the interleaving of the atomic transitions below;
the busy-wait loop and the `TimeoutError` path change no state. -/

namespace SQLiteConnectionPool

structure PoolState where
  max_connections : Nat
  pool : List Nat
  outstanding : List Nat
  active_connections : Nat
  nextConn : Nat
deriving DecidableEq

/-- `__init__` + `_initialize_pool` (`api/connection_pool.py` lines 17-32):
the pool starts with `min(3, max_connections)` fresh idle connections and
`active_connections = 0`. -/
def init (maxConnections : Nat) : PoolState :=
  { max_connections := maxConnections
  , pool := List.range (min 3 maxConnections)
  , outstanding := []
  , active_connections := 0
  , nextConn := min 3 maxConnections }

/-- The atomic state transitions of `get_connection`
(`api/connection_pool.py` lines 34-80).  Acquisition (inside the lock):
pop the last idle connection if any, else create a fresh one when
`active_connections < max_connections`.  Release (the `finally` block):
on rollback success, return the connection to the pool when
`len(pool) < max_connections`, else close it; on rollback failure, close
it; every release decrements `active_connections`. -/
inductive Step : PoolState → PoolState → Prop
  | acquirePooled (s : PoolState) (p : List Nat) (c : Nat) :
      s.pool = p ++ [c] →
      Step s { s with
        pool := p
        outstanding := c :: s.outstanding
        active_connections := s.active_connections + 1 }
  | acquireNew (s : PoolState) :
      s.pool = [] → s.active_connections < s.max_connections →
      Step s { s with
        outstanding := s.nextConn :: s.outstanding
        active_connections := s.active_connections + 1
        nextConn := s.nextConn + 1 }
  | releaseToPool (s : PoolState) (c : Nat) :
      c ∈ s.outstanding → s.pool.length < s.max_connections →
      Step s { s with
        pool := s.pool ++ [c]
        outstanding := s.outstanding.erase c
        active_connections := s.active_connections - 1 }
  | releaseClose (s : PoolState) (c : Nat) :
      c ∈ s.outstanding → ¬ s.pool.length < s.max_connections →
      Step s { s with
        outstanding := s.outstanding.erase c
        active_connections := s.active_connections - 1 }
  | releaseRollbackFailed (s : PoolState) (c : Nat) :
      c ∈ s.outstanding →
      Step s { s with
        outstanding := s.outstanding.erase c
        active_connections := s.active_connections - 1 }

/-- States reachable from a freshly constructed pool. -/
inductive Reachable : Nat → PoolState → Prop
  | init (maxConnections : Nat) : Reachable maxConnections (init maxConnections)
  | step {maxConnections : Nat} {s s2 : PoolState} :
      Reachable maxConnections s → Step s s2 → Reachable maxConnections s2

/-- The strengthened pool invariant. -/
def Inv (s : PoolState) : Prop :=
  s.outstanding.length + s.pool.length ≤ s.max_connections
  ∧ (∀ c ∈ s.pool, c ∉ s.outstanding)
  ∧ s.active_connections = s.outstanding.length
  ∧ s.pool.Nodup
  ∧ s.outstanding.Nodup
  ∧ (∀ c ∈ s.pool, c < s.nextConn)
  ∧ (∀ c ∈ s.outstanding, c < s.nextConn)

theorem inv_init (maxConnections : Nat) : Inv (init maxConnections) := by
  refine ⟨?_, ?_, rfl, ?_, List.nodup_nil, ?_, ?_⟩
  · simp [init]
  · simp [init]
  · exact List.nodup_range _
  · intro c hc
    simpa [init, List.mem_range] using hc
  · simp [init]

theorem inv_step {s s2 : PoolState} (hinv : Inv s) (hstep : Step s s2) :
    Inv s2 := by
  obtain ⟨hsum, hdisj, hact, hnp, hno, hbp, hbo⟩ := hinv
  cases hstep with
  | acquirePooled p c hp =>
    have hlen : s.pool.length = p.length + 1 := by rw [hp]; simp
    have hcpool : c ∈ s.pool := by rw [hp]; simp
    have hnp' : (p ++ [c]).Nodup := hp ▸ hnp
    rcases List.nodup_append.mp hnp' with ⟨hpn, -, hpdisj⟩
    refine ⟨by simp; omega, ?_, by simp [hact], hpn, ?_, ?_, ?_⟩
    · intro x hx
      have hxp : x ∈ s.pool := by rw [hp]; exact List.mem_append_left _ hx
      simp only [List.mem_cons, not_or]
      exact ⟨fun hxc => hpdisj hx (by simp [hxc]), hdisj x hxp⟩
    · exact List.Nodup.cons (hdisj c hcpool) hno
    · intro x hx
      exact hbp x (by rw [hp]; exact List.mem_append_left _ hx)
    · intro x hx
      rcases List.mem_cons.mp hx with rfl | hx'
      · exact hbp x hcpool
      · exact hbo x hx'
  | acquireNew hpool hact' =>
    refine ⟨?_, ?_, by simp [hact], hnp, ?_, ?_, ?_⟩
    · simp [hpool] at hsum ⊢
      omega
    · intro x hx
      rw [hpool] at hx
      simp at hx
    · exact List.Nodup.cons (fun hc => absurd (hbo _ hc) (by omega)) hno
    · intro x hx
      exact Nat.lt_succ_of_lt (hbp x hx)
    · intro x hx
      rcases List.mem_cons.mp hx with rfl | hx'
      · exact Nat.lt_succ_self _
      · exact Nat.lt_succ_of_lt (hbo x hx')
  | releaseToPool c hc hroom =>
    have herase : (s.outstanding.erase c).length + 1 = s.outstanding.length :=
      List.length_erase_add_one hc
    have hcnp : c ∉ s.pool := fun hcp => hdisj c hcp hc
    refine ⟨by simp; omega, ?_, by simp [hact]; omega, ?_, List.Nodup.erase c hno,
      ?_, ?_⟩
    · intro x hx
      rcases List.mem_append.mp hx with hx' | hx'
      · intro hmem
        exact hdisj x hx' (List.mem_of_mem_erase hmem)
      · simp at hx'
        subst hx'
        intro hmem
        exact ((List.Nodup.mem_erase_iff hno).mp hmem).1 rfl
    · exact List.nodup_append.mpr ⟨hnp, List.nodup_singleton c,
        by intro x hx1 hx2; simp at hx2; subst hx2; exact hcnp hx1⟩
    · intro x hx
      rcases List.mem_append.mp hx with hx' | hx'
      · exact hbp x hx'
      · simp at hx'
        subst hx'
        exact hbo x hc
    · intro x hx
      exact hbo x (List.mem_of_mem_erase hx)
  | releaseClose c hc hfull =>
    have herase : (s.outstanding.erase c).length + 1 = s.outstanding.length :=
      List.length_erase_add_one hc
    refine ⟨by simp; omega, ?_, by simp [hact]; omega, hnp,
      List.Nodup.erase c hno, hbp, ?_⟩
    · intro x hx hmem
      exact hdisj x hx (List.mem_of_mem_erase hmem)
    · intro x hx
      exact hbo x (List.mem_of_mem_erase hx)
  | releaseRollbackFailed c hc =>
    have herase : (s.outstanding.erase c).length + 1 = s.outstanding.length :=
      List.length_erase_add_one hc
    refine ⟨by simp; omega, ?_, by simp [hact]; omega, hnp,
      List.Nodup.erase c hno, hbp, ?_⟩
    · intro x hx hmem
      exact hdisj x hx (List.mem_of_mem_erase hmem)
    · intro x hx
      exact hbo x (List.mem_of_mem_erase hx)

theorem inv_reachable {maxConnections : Nat} {s : PoolState}
    (h : Reachable maxConnections s) : Inv s := by
  induction h with
  | init => exact inv_init _
  | step _ hstep ih => exact inv_step ih hstep

end SQLiteConnectionPool

/-- **C8.** At every reachable state of the connection pool, the number of
checked-out connections plus the number of idle pooled connections is at
most `max_connections`, and no connection is simultaneously idle in the
pool and checked out to a borrower. -/
theorem pool_invariant (maxConnections : Nat) (s : SQLiteConnectionPool.PoolState)
    (h : SQLiteConnectionPool.Reachable maxConnections s) :
    s.outstanding.length + s.pool.length ≤ s.max_connections
    ∧ ∀ c, ¬(c ∈ s.pool ∧ c ∈ s.outstanding) := by
  obtain ⟨hsum, hdisj, -⟩ := SQLiteConnectionPool.inv_reachable h
  exact ⟨hsum, fun c ⟨hc1, hc2⟩ => hdisj c hc1 hc2⟩

/-- Witness for C8 at the freshly initialized pool with capacity 10. -/
theorem pool_invariant_witness :
    SQLiteConnectionPool.Reachable 10 (SQLiteConnectionPool.init 10)
    ∧ ((SQLiteConnectionPool.init 10).outstanding.length
          + (SQLiteConnectionPool.init 10).pool.length
        ≤ (SQLiteConnectionPool.init 10).max_connections
      ∧ ∀ c, ¬(c ∈ (SQLiteConnectionPool.init 10).pool
          ∧ c ∈ (SQLiteConnectionPool.init 10).outstanding)) :=
  ⟨SQLiteConnectionPool.Reachable.init 10,
    pool_invariant 10 (SQLiteConnectionPool.init 10)
      (SQLiteConnectionPool.Reachable.init 10)⟩

namespace GatewayFastAPI

/-- The request body of `POST /request` (`api/gateway_fastapi.py` lines
95-99): `token`, `pubkey`, `profile` (default `"dev"`), `ttl` (default
1800). -/
structure TokenRequest where
  token : Str
  pubkey : Str
  profile : Str
  ttl : Int
deriving DecidableEq

/-- `handle_request` (`api/gateway_fastapi.py` lines 200-301), reduced to
the data flow into the external provisioner and the destruction scheduler:
on a token that fails validation the request is rejected (`none`, HTTP
403); otherwise `ttl` is re-read from the token's second field
(`int(request.token.split(':')[1])`, line 212) and the provisioner is
invoked with argv `[session_id, pubkey, request.profile, str(ttl)]`
(lines 221-227) while `schedule_destroy` is armed with the same `ttl`
(line 299).  The request body's `ttl` field is never read.  The `none`
branch under a successful validation is unreachable (validation already
parsed the field). -/
def handle_request (mac : Str → Str → Str) (secret : Str) (now : Int)
    (session_id : Str) (req : TokenRequest) : Option (List Str × Int) :=
  if validate_token mac secret now req.token then
    match parseInt ((req.token.splitOn ':').getD 1 []) with
    | some ttl => some ([session_id, req.pubkey, req.profile, intStr ttl], ttl)
    | none => none
  else none

end GatewayFastAPI

/-- **C10.** For every redeem request that passes token validation, the TTL
passed to the external provisioner and used to arm the destruction
scheduler is the value of the token's second field — the request body's
`ttl` field is ignored (replacing it changes nothing) — while the profile
passed to the provisioner is the request body's `profile` field, with no
requirement that it equal the profile signed inside the token. -/
theorem redeem_uses_token_ttl_and_request_profile
    (mac : Str → Str → Str) (secret session_id : Str) (now : Int)
    (req : GatewayFastAPI.TokenRequest) (args : List Str) (ttl : Int)
    (h : GatewayFastAPI.handle_request mac secret now session_id req
      = some (args, ttl)) :
    args = [session_id, req.pubkey, req.profile, intStr ttl]
    ∧ parseInt ((req.token.splitOn ':').getD 1 []) = some ttl
    ∧ ∀ t2 : Int,
        GatewayFastAPI.handle_request mac secret now session_id
          { req with ttl := t2 } = some (args, ttl) := by
  have hv : GatewayFastAPI.validate_token mac secret now req.token = true := by
    by_contra hv
    rw [Bool.not_eq_true] at hv
    unfold GatewayFastAPI.handle_request at h
    rw [Bool.eq_false_iff] at hv
    rw [if_neg hv] at h
    cases h
  unfold GatewayFastAPI.handle_request at h
  rw [if_pos hv] at h
  cases hp : parseInt ((req.token.splitOn ':').getD 1 []) with
  | none =>
    rw [hp] at h
    cases h
  | some t =>
    rw [hp] at h
    have h' := Option.some.inj h
    have ha : args = [session_id, req.pubkey, req.profile, intStr t] :=
      (congrArg Prod.fst h').symm
    have ht : ttl = t := (congrArg Prod.snd h').symm
    subst ha
    subst ht
    refine ⟨rfl, hp ▸ rfl, ?_⟩
    intro t2
    have e1 : ({ req with ttl := t2 } : GatewayFastAPI.TokenRequest).token
        = req.token := rfl
    have e2 : ({ req with ttl := t2 } : GatewayFastAPI.TokenRequest).pubkey
        = req.pubkey := rfl
    have e3 : ({ req with ttl := t2 } : GatewayFastAPI.TokenRequest).profile
        = req.profile := rfl
    unfold GatewayFastAPI.handle_request
    rw [e1, e2, e3, if_pos hv, hp]

/-- Witness for C10: a valid token with profile `dev` and ttl `600`,
redeemed with body profile `debug` and body ttl `99` — the provisioner
receives profile `debug` and ttl `600`; the body ttl is ignored. -/
theorem redeem_uses_token_ttl_and_request_profile_witness :
    ([chars "123", chars "pk", chars "debug", intStr 600]
        = [chars "123",
            (GatewayFastAPI.TokenRequest.mk (chars "dev:600:0:none:none:s")
              (chars "pk") (chars "debug") 99).pubkey,
            (GatewayFastAPI.TokenRequest.mk (chars "dev:600:0:none:none:s")
              (chars "pk") (chars "debug") 99).profile, intStr 600])
    ∧ parseInt (((GatewayFastAPI.TokenRequest.mk (chars "dev:600:0:none:none:s")
          (chars "pk") (chars "debug") 99).token.splitOn ':').getD 1 [])
        = some 600
    ∧ ∀ t2 : Int,
        GatewayFastAPI.handle_request (fun _ _ => chars "s") (chars "k") 0
          (chars "123")
          { GatewayFastAPI.TokenRequest.mk (chars "dev:600:0:none:none:s")
              (chars "pk") (chars "debug") 99 with ttl := t2 }
        = some ([chars "123", chars "pk", chars "debug", intStr 600], 600) :=
  redeem_uses_token_ttl_and_request_profile (fun _ _ => chars "s") (chars "k")
    (chars "123") 0
    (GatewayFastAPI.TokenRequest.mk (chars "dev:600:0:none:none:s")
      (chars "pk") (chars "debug") 99)
    [chars "123", chars "pk", chars "debug", intStr 600] 600
    (by
      unfold GatewayFastAPI.handle_request
      rw [if_pos (by decide)]
      rw [show parseInt ((((GatewayFastAPI.TokenRequest.mk
          (chars "dev:600:0:none:none:s") (chars "pk") (chars "debug")
          99).token).splitOn ':').getD 1 []) = some 600 from by decide])
